import Mathlib

/-!
Verification development for the two plugin tools of this repository:
the Firecrawl scraper/crawler (src/openfirecrawler/openfirecrawler.py)
and the YouTube transcript fetcher (src/transcript_fetcher/transcript_fetcher.py).

Each Python function relevant to the claims is embedded as an executable
Lean definition.  External HTTP traffic is modelled by passing the remote
responses as explicit arguments; Python exceptions are modelled with an
explicit error type and Except; the host's event sink is modelled by
collecting the emitted events in a list.
-/

/-! ## Python-level errors

Exceptions that the embedded code can raise.  They are carried in the
Except monad rather than by unwinding. -/

/-- Errors the embedded Python code can raise at runtime. -/
inductive PyErr where
  /-- Python TypeError, e.g. calling a method with too many arguments or
  calling None. -/
  | typeError (msg : String)
  /-- Python KeyError from a missing dictionary key. -/
  | keyError (msg : String)
  /-- Python AttributeError, e.g. calling a method on None. -/
  | attributeError (msg : String)
deriving DecidableEq, Repr

/-! ## String utilities

Executable counterparts of the Python string operations used by the
sources: substring search (str.find), slicing, str.replace and
str.lower.  They operate on the character list of the string so that
every definition reduces by rfl on concrete inputs. -/

/-- Does the pattern occur verbatim at the head of the character list. -/
def matchesAt (pat s : List Char) : Bool :=
  match pat, s with
  | [], _ => true
  | _ :: _, [] => false
  | p :: ps, c :: cs => p == c && matchesAt ps cs

/-- Index of the first occurrence of the pattern in the list, scanning
left to right; none when the pattern never occurs.  Mirrors Python
str.find (with -1 mapped to none). -/
def findSub (pat : List Char) : List Char → Option Nat
  | [] => if matchesAt pat [] then some 0 else none
  | c :: cs =>
    if matchesAt pat (c :: cs) then some 0
    else (findSub pat cs).map (fun n => n + 1)

/-- Python s.find(pat, start): lowest index at or after start where pat
occurs in s, as an index into s. -/
def strFindFrom (s pat : String) (start : Nat) : Option Nat :=
  (findSub pat.toList (s.toList.drop start)).map (fun n => n + start)

/-- Does s contain pat as a contiguous substring. -/
def hasSub (s pat : String) : Bool :=
  (findSub pat.toList s.toList).isSome

/-- Python slice s[i:j] for 0 ≤ i ≤ j within bounds. -/
def strSlice (s : String) (i j : Nat) : String :=
  String.mk ((s.toList.drop i).take (j - i))

/-- Fuel-driven worker for strReplace.  The fuel starts at the length of
the subject string, which every recursive call strictly respects, so the
fuel-0 branch is never taken on the initial call; the fuel only makes the
recursion structural so that concrete inputs evaluate by rfl. -/
def replaceGo (pat rep : List Char) : Nat → List Char → List Char
  | _, [] => []
  | 0, s => s
  | fuel + 1, c :: cs =>
    match pat with
    | [] => c :: cs
    | p :: ps =>
      if matchesAt (p :: ps) (c :: cs) then
        rep ++ replaceGo (p :: ps) rep fuel (cs.drop ps.length)
      else
        c :: replaceGo (p :: ps) rep fuel cs

/-- Python s.replace(pat, rep): replace every non-overlapping occurrence
of pat in s, scanning left to right.  The sources only call it with
non-empty patterns, so the empty-pattern behaviour of CPython (inserting
between characters) is not modelled. -/
def strReplace (s pat rep : String) : String :=
  String.mk (replaceGo pat.toList rep.toList s.toList.length s.toList)

/-- Python s.lower() restricted to the ASCII range used by the sources. -/
def strLower (s : String) : String :=
  String.mk (s.toList.map Char.toLower)

/-! ## transcript_fetcher.py : video id extraction

Embedding of Tools.extract_video_id, which runs
re.search(r"(?:v=|youtu\.be/)([a-zA-Z0-9_-]{11})", url) and returns
group 1 or the empty string. -/

/-- Character class [a-zA-Z0-9_-] of the video id regex. -/
def vidIdChar (c : Char) : Bool :=
  c.isAlphanum || c == '_' || c == '-'

/-- Attempt of the quantifier [a-zA-Z0-9_-]{11} at the head of s:
exactly the next 11 characters when all of them are id characters. -/
def takeId (s : List Char) : Option (List Char) :=
  let cand := s.take 11
  if cand.length == 11 && cand.all vidIdChar then some cand else none

/-- Attempt of the whole pattern at the head of s: the alternation
tries the literal "v=" and then the literal "youtu.be/", each followed
by 11 id characters. -/
def matchVidAt (s : List Char) : Option (List Char) :=
  (if matchesAt "v=".toList s then takeId (s.drop 2) else none).orElse
    (fun _ => if matchesAt "youtu.be/".toList s then takeId (s.drop 9) else none)

/-- re.search semantics: try the pattern at every position, left to
right, and return the first group of the leftmost match. -/
def searchVid : List Char → Option (List Char)
  | [] => none
  | c :: cs =>
    match matchVidAt (c :: cs) with
    | some vid => some vid
    | none => searchVid cs

/-- Embedding of Tools.extract_video_id: the matched 11-character id, or
the empty string when the regex does not match anywhere in the url. -/
def extract_video_id (url : String) : String :=
  match searchVid url.toList with
  | some v => String.mk v
  | none => ""

/-- Does the url contain the video id pattern at some position.  Stated
independently of searchVid (via the list of suffixes) so that the
no-match clause of the claim is not circular. -/
def containsVidPattern (url : String) : Bool :=
  url.toList.tails.any (fun t => (matchVidAt t).isSome)

/-! ## transcript_fetcher.py : caption url extraction

Embedding of Tools.extract_caption_url. -/

/-- Embedding of Tools.extract_caption_url: locate the first
"baseUrl":"..." field by substring search and unescape the JSON-escaped
ampersand sequence. -/
def extract_caption_url (captions_data : String) : String :=
  match strFindFrom captions_data "\"baseUrl\":\"" 0 with
  | none => ""
  | some i =>
    let url_start := i + "\"baseUrl\":\"".length
    match strFindFrom captions_data "\"" url_start with
    | none => ""
    | some url_end => strReplace (strSlice captions_data url_start url_end) "\\u0026" "&"

/-! ## transcript_fetcher.py : caption XML

The caption response text is parsed by xml.etree.ElementTree.  The
embedding works on the parsed tree: an element has a tag, the text
before its first child (ElementTree .text, already entity-decoded by the
parser, and None for an element with no such text) and children.  The
forest is encoded first-child / next-sibling so that all recursion is
structural. -/

/-- Forest of parsed XML elements in first-child / next-sibling form. -/
inductive XForest where
  | nil : XForest
  | elem (tag : String) (txt : Option String) (children : XForest) (next : XForest) : XForest
deriving DecidableEq, Repr

/-- Result of ET.fromstring on the caption response text: a parse error,
or the root element (its tag, its text and its children). -/
inductive XmlDoc where
  /-- the text was not well-formed XML; ET.fromstring raised ParseError -/
  | malformed : XmlDoc
  /-- the parsed root element -/
  | parsed (tag : String) (txt : Option String) (children : XForest) : XmlDoc
deriving DecidableEq, Repr

/-- The .text attributes of root.findall(".//text"): every descendant
element whose tag is "text", in document order (an element before its
own descendants). -/
def findTextNodes : XForest → List (Option String)
  | .nil => []
  | .elem t tx ch next =>
    (if t == "text" then [tx] else []) ++ findTextNodes ch ++ findTextNodes next

/-- The two replace calls applied to each caption line:
text.text.replace("&#39;", "'").replace("&amp;", "&"). -/
def unescapeLine (s : String) : String :=
  strReplace (strReplace s "&#39;" "'") "&amp;" "&"

/-- One step of the list comprehension: text.text.replace(...) raises
AttributeError when the element has no text (ElementTree .text is None),
since the comprehension guards nothing. -/
def lineOfText : Option String → Except PyErr String
  | none => .error (.attributeError "'NoneType' object has no attribute 'replace'")
  | some s => .ok (unescapeLine s)

/-- Embedding of Tools.extract_transcript_from_xml: on a parse error
return the empty string (the except ET.ParseError branch); otherwise
unescape every text line and join the lines with single spaces, raising
AttributeError at the first element whose text is None. -/
def extract_transcript_from_xml : XmlDoc → Except PyErr String
  | .malformed => .ok ""
  | .parsed _ _ ch =>
    match (findTextNodes ch).mapM lineOfText with
    | .error e => .error e
    | .ok lines => .ok (String.intercalate " " lines)

/-- Every text element of the caption document has text content (no
ElementTree .text is None).  A malformed document satisfies this
vacuously since extraction never reaches the comprehension there. -/
def xmlTextsPresent : XmlDoc → Bool
  | .malformed => true
  | .parsed _ _ ch => (findTextNodes ch).all Option.isSome

/-! ## transcript_fetcher.py : fetch_youtube_transcript

The two HTTP requests of the function are modelled by the remote
responses passed in as data; the caption response is passed in already
classified by the XML parser (XmlDoc).  Events awaited on
__event_emitter__ are collected in a list.  When the caller supplies no
sink, Python evaluates (await None(...)) at the very first notification
and raises TypeError: NoneType object is not callable. -/

/-- Events the transcript tool sends to its notification sink: status
events with a done flag, and one message event. -/
inductive TFEvent where
  | status (description : String) (done : Bool) : TFEvent
  | message (content : String) : TFEvent
deriving DecidableEq, Repr

/-- Remote responses consumed by one invocation of
fetch_youtube_transcript: the watch-page request and the caption-track
request.  An error value is the text of the requests.RequestException
raised for that request (raise_for_status or transport failure). -/
structure TFRemote where
  watchPage : Except String String
  captionDoc : Except String XmlDoc
deriving Repr

/-- Embedding of Tools.fetch_youtube_transcript.  Returns the events
awaited on the sink together with the returned string, or the Python
exception that escapes the call.  hasSink is whether __event_emitter__
is a callable rather than None. -/
def fetch_youtube_transcript (hasSink : Bool) (video_url : String)
    (remote : TFRemote) : List TFEvent × Except PyErr String :=
  if hasSink = false then
    ([], .error (.typeError "'NoneType' object is not callable"))
  else
    let e1 := TFEvent.status "Extracting video ID..." false
    let video_id := extract_video_id video_url
    if video_id == "" then ([e1], .ok "Invalid YouTube URL")
    else
      let e2 := TFEvent.status "Fetching video page..." false
      match remote.watchPage with
      | .error e =>
        ([e1, e2, TFEvent.status "Failed to fetch video" true],
          .ok ("Failed to fetch YouTube video page: " ++ e))
      | .ok body =>
        let e3 := TFEvent.status "Extracting captions data..." false
        match strFindFrom body "\"captionTracks\":" 0 with
        | none =>
          ([e1, e2, e3, TFEvent.status "No captions available" true],
            .ok "No captions found for video")
        | some start_index =>
          match strFindFrom body "]" start_index with
          | none => ([e1, e2, e3], .ok "Invalid captions data")
          | some end_index =>
            let captions_data := strSlice body start_index (end_index + 1)
            let caption_url := extract_caption_url captions_data
            if caption_url == "" then
              ([e1, e2, e3, TFEvent.status "No English captions found" true],
                .ok "No suitable captions found")
            else
              let e4 := TFEvent.status "Downloading transcript..." false
              match remote.captionDoc with
              | .error e => ([e1, e2, e3, e4], .ok ("Failed to fetch transcript: " ++ e))
              | .ok xdoc =>
                match extract_transcript_from_xml xdoc with
                | .error err => ([e1, e2, e3, e4], .error err)
                | .ok transcript =>
                  if transcript == "" then ([e1, e2, e3, e4], .ok "Transcript extraction failed")
                  else
                    ([e1, e2, e3, e4,
                      TFEvent.status "Transcript fetched successfully!" true,
                      TFEvent.message "Transcript has been fetched!\n\n"],
                      .ok ("Here's the transcript, : " ++ transcript ++ ".\n\n"))

/-! ## openfirecrawler.py : EventEmitter

Embedding of the EventEmitter class.  The sink callable is modelled by
whether one was supplied (truthiness of self.event_emitter); an emitted
event is recorded as a value in the returned list instead of being sent.
progress_update and success_update are embedded directly since every
call site passes exactly one positional argument matching the Python
signature; error_update takes its Python argument list explicitly,
because its single call site passes two positional arguments where the
signature declares one, which Python rejects with a TypeError at call
time regardless of show_logs. -/

/-- One event sent to the chat sink: the dict
(type "status", data (status, description, done)). -/
structure StatusEvent where
  status : String
  description : String
  done : Bool
deriving DecidableEq, Repr

/-- A Python value passed positionally to a notifier method. -/
inductive PyVal where
  | str (s : String) : PyVal
  | bool (b : Bool) : PyVal
deriving DecidableEq, Repr

/-- Python str() of a PyVal, used as the event description. -/
def pyShow : PyVal → String
  | .str s => s
  | .bool b => if b then "True" else "False"

/-- State of an EventEmitter: whether a sink callable was supplied and
the show_logs toggle. -/
structure EventEmitter where
  has_sink : Bool
  show_logs : Bool
deriving DecidableEq, Repr

/-- EventEmitter.emit: build the event dict and call the sink when one
is present; with no sink nothing happens. -/
def EventEmitter.emit (e : EventEmitter) (description status : String) (done : Bool) :
    List StatusEvent :=
  if e.has_sink then [⟨status, description, done⟩] else []

/-- EventEmitter.progress_update: emit with status in_progress when
show_logs is set. -/
def EventEmitter.progress_update (e : EventEmitter) (description : String) :
    List StatusEvent :=
  if e.show_logs then e.emit description "in_progress" false else []

/-- EventEmitter.success_update: emit with status success and done=True
when show_logs is set. -/
def EventEmitter.success_update (e : EventEmitter) (description : String) :
    List StatusEvent :=
  if e.show_logs then e.emit description "success" true else []

/-- EventEmitter.error_update applied to a positional argument list.
The Python signature declares a single parameter besides self, so a call
with any other number of arguments raises TypeError while binding the
arguments, before the body (and its show_logs test) runs. -/
def EventEmitter.error_update (e : EventEmitter) (args : List PyVal) :
    Except PyErr (List StatusEvent) :=
  match args with
  | [d] => .ok (if e.show_logs then e.emit (pyShow d) "error" false else [])
  | _ => .error (.typeError "error_update() takes 2 positional arguments but 3 were given")

/-! ## openfirecrawler.py : Tools.Valves and result records -/

/-- The Valves configuration of the crawler tool. -/
structure Valves where
  API_URL : String
  API_KEY : String
  SHOW_LOGS : Bool
  LIMIT : Nat
  DEFAULT_FORMAT : String
  MAX_DEPTH : Nat
  CLEAN_CONTENT : Bool
deriving DecidableEq, Repr

/-- The default Valves values declared by the Field defaults. -/
def defaultValves : Valves :=
  { API_URL := "https://api.firecrawl.dev"
    API_KEY := "api_key"
    SHOW_LOGS := true
    LIMIT := 100
    DEFAULT_FORMAT := "html"
    MAX_DEPTH := 2
    CLEAN_CONTENT := true }

/-- One remote document as consumed by the processing loops: the
optional html and markdown bodies keyed in the document dict, and the
optional title and sourceURL fields of its metadata dict (none models a
missing key, which the code dereferences unguardedly). -/
structure PageDoc where
  html : Option String
  markdown : Option String
  title : Option String
  sourceURL : Option String
deriving DecidableEq, Repr

/-- The result record appended per page:
(url, title, content, errors). -/
structure ResultRecord where
  url : String
  title : String
  content : String
  errors : List String
deriving DecidableEq, Repr

/-- Content selection of both processing loops: prefer the html body,
cleaning it (clean_links then clean_images) exactly when CLEAN_CONTENT
is set, else fall back to the markdown body verbatim, else the empty
string.  The two string-level cleaning transforms are passed in as cl
and ci since they are parse-transform-serialize pipelines whose tree
transforms are defined below. -/
def selectContent (cl ci : String → String) (cleanFlag : Bool) (doc : PageDoc) : String :=
  match doc.html with
  | some h => if cleanFlag then ci (cl h) else h
  | none =>
    match doc.markdown with
    | some m => m
    | none => ""

/-- Processing of one document: select the content, then read
doc.metadata.title and doc.metadata.sourceURL (KeyError when missing)
and build the result record with an empty errors list. -/
def processDoc (cl ci : String → String) (cleanFlag : Bool) (doc : PageDoc) :
    Except PyErr ResultRecord :=
  let content := selectContent cl ci cleanFlag doc
  match doc.title with
  | none => .error (.keyError "'title'")
  | some t =>
    match doc.sourceURL with
    | none => .error (.keyError "'sourceURL'")
    | some u => .ok ⟨u, t, content, []⟩

/-- The per-document loop of crawl_website: emit one progress event per
document (numbered i of total) and append its record; a KeyError while
processing a document aborts the loop and propagates. -/
def processDocs (em : EventEmitter) (cl ci : String → String) (cleanFlag : Bool)
    (total : Nat) : List PageDoc → Nat → List StatusEvent × Except PyErr (List ResultRecord)
  | [], _ => ([], .ok [])
  | d :: rest, i =>
    let ev := em.progress_update ("Processing document " ++ toString i ++ "/" ++ toString total)
    match processDoc cl ci cleanFlag d with
    | .error e => (ev, .error e)
    | .ok r =>
      match processDocs em cl ci cleanFlag total rest (i + 1) with
      | (evs, .error e) => (ev ++ evs, .error e)
      | (evs, .ok rs) => (ev ++ evs, .ok (r :: rs))

/-- The poll loop of crawl_website: repeatedly check_crawl_status until
the status is completed or failed.  The argument is the sequence of
statuses the remote returns to successive checks; none models the loop
never observing a terminal status (it polls forever). -/
def pollLoop : List String → Option String
  | [] => none
  | s :: rest => if s == "completed" || s == "failed" then some s else pollLoop rest

/-- A Python value returned by the tools: the JSON string of the happy
path, or the bare Python list returned by the crawl failure branch. -/
inductive PyRet where
  | str (s : String) : PyRet
  | pylist (rs : List ResultRecord) : PyRet
deriving DecidableEq, Repr

/-- JSON string escaping for jsonDumps (backslash and quote). -/
def jsonEscape (s : String) : String :=
  strReplace (strReplace s "\\" "\\\\") "\"" "\\\""

/-- JSON object for one result record, in the key order of the source
dict literal. -/
def jsonRecord (r : ResultRecord) : String :=
  "\x7b\"url\": \"" ++ jsonEscape r.url ++ "\", \"title\": \"" ++ jsonEscape r.title ++
    "\", \"content\": \"" ++ jsonEscape r.content ++ "\", \"errors\": []\x7d"

/-- json.dumps of the results list. -/
def jsonDumps (rs : List ResultRecord) : String :=
  "[" ++ String.intercalate ", " (rs.map jsonRecord) ++ "]"

/-! ## openfirecrawler.py : scrape_website and crawl_website

The FirecrawlApp calls are modelled by passing the remote responses as
arguments: the single scraped document for scrape_website, and the
sequence of polled statuses plus the document list of a completed crawl
for crawl_website. -/

/-- Embedding of Tools.scrape_website: the emitted events together with
the returned value or the escaping exception. -/
def scrape_website (v : Valves) (hasSink : Bool) (url : String) (doc : PageDoc)
    (cl ci : String → String) : List StatusEvent × Except PyErr PyRet :=
  let em : EventEmitter := ⟨hasSink, v.SHOW_LOGS⟩
  let ev1 := em.progress_update ("Starting scraping of " ++ url)
  let ev2 := em.progress_update "Starting scrape document load"
  let ev3 := em.progress_update "Scrape successful. Processing..."
  match processDoc cl ci v.CLEAN_CONTENT doc with
  | .error e => (ev1 ++ ev2 ++ ev3, .error e)
  | .ok r =>
    let ev4 := em.success_update "Successfully processed scrape"
    (ev1 ++ ev2 ++ ev3 ++ ev4, .ok (.str (jsonDumps [r])))

/-- Embedding of Tools.crawl_website.  polled is the sequence of
statuses returned by successive check_crawl_status calls and docs the
document list of the completed crawl; the whole result is none when the
poll loop never sees a terminal status.  On the failed branch the code
calls error_update with two positional arguments (the message and True),
which raises TypeError before any error event is emitted; were the call
well-formed, the branch would return the bare empty list. -/
def crawl_website (v : Valves) (hasSink : Bool) (url : String) (polled : List String)
    (docs : List PageDoc) (cl ci : String → String) :
    Option (List StatusEvent × Except PyErr PyRet) :=
  let em : EventEmitter := ⟨hasSink, v.SHOW_LOGS⟩
  let ev1 := em.progress_update ("Starting crawl of " ++ url)
  let ev2 := em.progress_update "Starting crawl document load"
  match pollLoop polled with
  | none => none
  | some status =>
    if status == "failed" then
      match em.error_update [.str ("Crawl failed for URL: " ++ url), .bool true] with
      | .error e => some (ev1 ++ ev2, .error e)
      | .ok evE => some (ev1 ++ ev2 ++ evE, .ok (.pylist []))
    else
      let ev3 := em.progress_update
        ("Crawl successful. Received " ++ toString docs.length ++ " documents. Processing...")
      match processDocs em cl ci v.CLEAN_CONTENT docs.length docs 1 with
      | (evs, .error e) => some (ev1 ++ ev2 ++ ev3 ++ evs, .error e)
      | (evs, .ok rs) =>
        let ev4 := em.success_update ("Successfully processed " ++ toString rs.length ++ " pages")
        some (ev1 ++ ev2 ++ ev3 ++ evs ++ ev4, .ok (.str (jsonDumps rs)))

/-! ## openfirecrawler.py : clean_links and clean_images

Both transforms parse their input with BeautifulSoup, edit the parsed
tree and re-serialize it.  The embedding defines the tree edit on the
parsed document.  A parsed node is a string or an element carrying its
tag (lowercased by the parser), its class attribute (a list of class
tokens), its optional id attribute and its children; the forest is
encoded first-child / next-sibling so that all recursion is structural.
Anchors are assumed not to nest (HTML forbids nested a elements). -/

/-- Forest of parsed HTML nodes in first-child / next-sibling form. -/
inductive HForest where
  | nil : HForest
  | text (s : String) (next : HForest) : HForest
  | elem (tag : String) (classes : List String) (id : Option String)
      (children : HForest) (next : HForest) : HForest
deriving DecidableEq, Repr

/-- The class filter of clean_links: some class token of the element
contains the (lowercase) vocabulary word, case-insensitively.  A
multi-valued class attribute is matched token-wise by BeautifulSoup;
since no vocabulary word contains a space this agrees with matching the
whole attribute string. -/
def classMatches (w : String) (classes : List String) : Bool :=
  classes.any (fun c => hasSub (strLower c) w)

/-- The id filter of clean_links: the element has an id attribute whose
lowercase form contains cite or ref. -/
def idMatches : Option String → Bool
  | none => false
  | some x => hasSub (strLower x) "cite" || hasSub (strLower x) "ref"

/-- The citation_classes vocabulary of clean_links. -/
def citationClasses : List String :=
  ["citation", "reference", "cite", "reflist", "references"]

/-- The citation_elements tag list of clean_links. -/
def citationElements : List String := ["cite", "sup", "span"]

/-- One find_all(class_=...) pass of clean_links: decompose every
element some class token of which contains the word; a decomposed
element is removed together with its whole subtree. -/
def removeClassWord (w : String) : HForest → HForest
  | .nil => .nil
  | .text s next => .text s (removeClassWord w next)
  | .elem t cs i ch next =>
    if classMatches w cs then removeClassWord w next
    else .elem t cs i (removeClassWord w ch) (removeClassWord w next)

/-- The first loop of clean_links: one removal pass per vocabulary
word, in order. -/
def removeClassPasses (f : HForest) : HForest :=
  citationClasses.foldl (fun acc w => removeClassWord w acc) f

/-- The find_all([tags]) pass: decompose every element whose tag is in
the list. -/
def removeTags (tags : List String) : HForest → HForest
  | .nil => .nil
  | .text s next => .text s (removeTags tags next)
  | .elem t cs i ch next =>
    if tags.contains t then removeTags tags next
    else .elem t cs i (removeTags tags ch) (removeTags tags next)

/-- get_text() of a forest: the concatenation of all strings in the
subtree, in document order, with no separator. -/
def getText : HForest → String
  | .nil => ""
  | .text s next => s ++ getText next
  | .elem _ _ _ ch next => getText ch ++ getText next

/-- The anchor pass of clean_links: replace every a element with the
NavigableString of its own get_text(). -/
def unwrapAnchors : HForest → HForest
  | .nil => .nil
  | .text s next => .text s (unwrapAnchors next)
  | .elem t cs i ch next =>
    if t == "a" then .text (getText ch) (unwrapAnchors next)
    else .elem t cs i (unwrapAnchors ch) (unwrapAnchors next)

/-- The id pass of clean_links: decompose every element whose id
contains cite or ref. -/
def removeIdMatching : HForest → HForest
  | .nil => .nil
  | .text s next => .text s (removeIdMatching next)
  | .elem t cs i ch next =>
    if idMatches i then removeIdMatching next
    else .elem t cs i (removeIdMatching ch) (removeIdMatching next)

/-- get_text(strip=True) emptiness of a subtree: every string in it is
whitespace-only, so the stripped text has length zero. -/
def allWs : HForest → Bool
  | .nil => true
  | .text s next => (s.trim == "") && allWs next
  | .elem _ _ _ ch next => allWs ch && allWs next

/-- The final pass of clean_links: decompose every li element whose
stripped text is empty (together with its subtree). -/
def removeEmptyLi : HForest → HForest
  | .nil => .nil
  | .text s next => .text s (removeEmptyLi next)
  | .elem t cs i ch next =>
    if t == "li" && allWs ch then removeEmptyLi next
    else .elem t cs i (removeEmptyLi ch) (removeEmptyLi next)

/-- The tree edit of clean_links: the five passes of the source in
order (citation classes, citation tags, anchor unwrapping, citation
ids, empty list items). -/
def cleanLinksT (f : HForest) : HForest :=
  removeEmptyLi (removeIdMatching (unwrapAnchors (removeTags citationElements
    (removeClassPasses f))))

/-- The tree edit of clean_images: decompose all img elements, then all
figure elements. -/
def cleanImagesT (f : HForest) : HForest :=
  removeTags ["figure"] (removeTags ["img"] f)

/-- Serialization of a text node with BeautifulSoup's minimal output
formatter: ampersands and angle brackets are entity-escaped, so
re-parsing the output reproduces the tree. -/
def escapeHtml (s : String) : String :=
  strReplace (strReplace (strReplace s "&" "&amp;") "<" "&lt;") ">" "&gt;"

/-- The class attribute text of a serialized element. -/
def classAttr : List String → String
  | [] => ""
  | cs => " class=\"" ++ String.intercalate " " cs ++ "\""

/-- The id attribute text of a serialized element. -/
def idAttr : Option String → String
  | none => ""
  | some x => " id=\"" ++ x ++ "\""

/-- str(soup): serialize the forest back to an HTML string. -/
def serializeF : HForest → String
  | .nil => ""
  | .text s next => escapeHtml s ++ serializeF next
  | .elem t cs i ch next =>
    "<" ++ t ++ classAttr cs ++ idAttr i ++ ">" ++ serializeF ch ++ "</" ++ t ++ ">" ++
      serializeF next

/-- Embedding of clean_links on the parsed input: edit the tree and
return str(soup). -/
def clean_links (f : HForest) : String :=
  serializeF (cleanLinksT f)

/-- Embedding of clean_images on the parsed input: edit the tree and
return str(soup). -/
def clean_images (f : HForest) : String :=
  serializeF (cleanImagesT f)

/-! ## Element predicates used by the theorems -/

/-- Does every element of the forest (at any depth) satisfy the
predicate on (tag, classes, id). -/
def allElems (q : String → List String → Option String → Bool) : HForest → Bool
  | .nil => true
  | .text _ next => allElems q next
  | .elem t cs i ch next => q t cs i && allElems q ch && allElems q next

/-- Does the forest hold no li element whose stripped text is empty. -/
def noEmptyLi : HForest → Bool
  | .nil => true
  | .text _ next => noEmptyLi next
  | .elem t _ _ ch next => !(t == "li" && allWs ch) && noEmptyLi ch && noEmptyLi next

/-! ## Concrete inputs used by the counterexamples and witnesses -/

/-- Parsed form of the HTML input
span(a("hello")): an anchor inside a span element. -/
def exSpanAnchor : HForest :=
  .elem "span" [] none (.elem "a" [] none (.text "hello" .nil) .nil) .nil

/-- A crawled document whose metadata sourceURL is the empty string and
which has neither an html nor a markdown body. -/
def exEmptyUrlDoc : PageDoc := ⟨none, none, some "t", some ""⟩

/-- Parsed form of the caption XML
transcript(text()): one text element with no text content
(ElementTree .text is None for it). -/
def exEmptyTextXml : XmlDoc := .parsed "transcript" none (.elem "text" none .nil .nil)

/-- Parsed form of the spec's caption XML example
transcript(text("It&#39;s &amp;")): ET.fromstring decodes the two
character references while parsing, so the .text of the text element is
the decoded string. -/
def exTranscriptXml : XmlDoc := .parsed "transcript" none (.elem "text" (some "It's &") .nil .nil)

/-- A watch-page body holding a captionTracks fragment with a baseUrl. -/
def exCaptionBody : String := "\"captionTracks\":[\x7b\"baseUrl\":\"https://x\"\x7d]"

/-- Remote responses leading fetch_youtube_transcript to the transcript
extraction step with exEmptyTextXml as the parsed caption document. -/
def exBadXmlRemote : TFRemote := ⟨.ok exCaptionBody, .ok exEmptyTextXml⟩

/-! ## Helper lemmas about the cleaning passes

Monotonicity: each removal pass keeps every element predicate that held
of all elements, since the surviving elements are a subset of the
original ones (anchor unwrapping only turns elements into strings).
Establishment: after its pass, no element matches the pass's filter.
Identity: a pass is the identity on a forest no element of which
matches its filter. -/

theorem allElems_removeClassWord_mono (q : String → List String → Option String → Bool)
    (w : String) (f : HForest) (h : allElems q f = true) :
    allElems q (removeClassWord w f) = true := by
  induction f with
  | nil => simpa [removeClassWord] using h
  | text s next ih =>
    simp only [allElems, removeClassWord] at h ⊢
    exact ih h
  | elem t cs i ch next ih1 ih2 =>
    simp only [allElems, Bool.and_eq_true] at h
    obtain ⟨⟨hq, hch⟩, hnext⟩ := h
    by_cases hc : classMatches w cs = true
    · simp only [removeClassWord, hc, if_true]
      exact ih2 hnext
    · simp only [Bool.not_eq_true] at hc
      simp only [removeClassWord, hc, Bool.false_eq_true, if_false, allElems,
        Bool.and_eq_true]
      exact ⟨⟨hq, ih1 hch⟩, ih2 hnext⟩

theorem allElems_removeTags_mono (q : String → List String → Option String → Bool)
    (tags : List String) (f : HForest) (h : allElems q f = true) :
    allElems q (removeTags tags f) = true := by
  induction f with
  | nil => simpa [removeTags] using h
  | text s next ih =>
    simp only [allElems, removeTags] at h ⊢
    exact ih h
  | elem t cs i ch next ih1 ih2 =>
    simp only [allElems, Bool.and_eq_true] at h
    obtain ⟨⟨hq, hch⟩, hnext⟩ := h
    by_cases hc : tags.contains t = true
    · simp only [removeTags, hc, if_true]
      exact ih2 hnext
    · simp only [Bool.not_eq_true] at hc
      simp only [removeTags, hc, Bool.false_eq_true, if_false, allElems, Bool.and_eq_true]
      exact ⟨⟨hq, ih1 hch⟩, ih2 hnext⟩

theorem allElems_unwrapAnchors_mono (q : String → List String → Option String → Bool)
    (f : HForest) (h : allElems q f = true) :
    allElems q (unwrapAnchors f) = true := by
  induction f with
  | nil => simpa [unwrapAnchors] using h
  | text s next ih =>
    simp only [allElems, unwrapAnchors] at h ⊢
    exact ih h
  | elem t cs i ch next ih1 ih2 =>
    simp only [allElems, Bool.and_eq_true] at h
    obtain ⟨⟨hq, hch⟩, hnext⟩ := h
    by_cases hc : (t == "a") = true
    · simp only [unwrapAnchors, hc, if_true, allElems]
      exact ih2 hnext
    · simp only [Bool.not_eq_true] at hc
      simp only [unwrapAnchors, hc, Bool.false_eq_true, if_false, allElems, Bool.and_eq_true]
      exact ⟨⟨hq, ih1 hch⟩, ih2 hnext⟩

theorem allElems_removeIdMatching_mono (q : String → List String → Option String → Bool)
    (f : HForest) (h : allElems q f = true) :
    allElems q (removeIdMatching f) = true := by
  induction f with
  | nil => simpa [removeIdMatching] using h
  | text s next ih =>
    simp only [allElems, removeIdMatching] at h ⊢
    exact ih h
  | elem t cs i ch next ih1 ih2 =>
    simp only [allElems, Bool.and_eq_true] at h
    obtain ⟨⟨hq, hch⟩, hnext⟩ := h
    by_cases hc : idMatches i = true
    · simp only [removeIdMatching, hc, if_true]
      exact ih2 hnext
    · simp only [Bool.not_eq_true] at hc
      simp only [removeIdMatching, hc, Bool.false_eq_true, if_false, allElems,
        Bool.and_eq_true]
      exact ⟨⟨hq, ih1 hch⟩, ih2 hnext⟩

theorem allElems_removeEmptyLi_mono (q : String → List String → Option String → Bool)
    (f : HForest) (h : allElems q f = true) :
    allElems q (removeEmptyLi f) = true := by
  induction f with
  | nil => simpa [removeEmptyLi] using h
  | text s next ih =>
    simp only [allElems, removeEmptyLi] at h ⊢
    exact ih h
  | elem t cs i ch next ih1 ih2 =>
    simp only [allElems, Bool.and_eq_true] at h
    obtain ⟨⟨hq, hch⟩, hnext⟩ := h
    by_cases hc : (t == "li" && allWs ch) = true
    · simp only [removeEmptyLi, hc, if_true]
      exact ih2 hnext
    · simp only [Bool.not_eq_true] at hc
      simp only [removeEmptyLi, hc, Bool.false_eq_true, if_false, allElems, Bool.and_eq_true]
      exact ⟨⟨hq, ih1 hch⟩, ih2 hnext⟩

theorem removeClassWord_clean (w : String) (f : HForest) :
    allElems (fun _ cs _ => !classMatches w cs) (removeClassWord w f) = true := by
  induction f with
  | nil => simp [removeClassWord, allElems]
  | text s next ih => simpa [removeClassWord, allElems] using ih
  | elem t cs i ch next ih1 ih2 =>
    by_cases hc : classMatches w cs = true
    · simp only [removeClassWord, hc, if_true]
      exact ih2
    · simp only [Bool.not_eq_true] at hc
      simp only [removeClassWord, hc, Bool.false_eq_true, if_false, allElems, hc,
        Bool.not_false, Bool.true_and, Bool.and_eq_true]
      exact ⟨ih1, ih2⟩

theorem removeTags_clean (tags : List String) (f : HForest) :
    allElems (fun t _ _ => !tags.contains t) (removeTags tags f) = true := by
  induction f with
  | nil => simp [removeTags, allElems]
  | text s next ih => simpa [removeTags, allElems] using ih
  | elem t cs i ch next ih1 ih2 =>
    by_cases hc : tags.contains t = true
    · simp only [removeTags, hc, if_true]
      exact ih2
    · simp only [Bool.not_eq_true] at hc
      simp only [removeTags, hc, Bool.false_eq_true, if_false, allElems, hc,
        Bool.not_false, Bool.true_and, Bool.and_eq_true]
      exact ⟨ih1, ih2⟩

theorem unwrapAnchors_clean (f : HForest) :
    allElems (fun t _ _ => !(t == "a")) (unwrapAnchors f) = true := by
  induction f with
  | nil => simp [unwrapAnchors, allElems]
  | text s next ih => simpa [unwrapAnchors, allElems] using ih
  | elem t cs i ch next ih1 ih2 =>
    by_cases hc : (t == "a") = true
    · simp only [unwrapAnchors, hc, if_true, allElems]
      exact ih2
    · simp only [Bool.not_eq_true] at hc
      simp only [unwrapAnchors, hc, Bool.false_eq_true, if_false, allElems, hc,
        Bool.not_false, Bool.true_and, Bool.and_eq_true]
      exact ⟨ih1, ih2⟩

theorem removeIdMatching_clean (f : HForest) :
    allElems (fun _ _ i => !idMatches i) (removeIdMatching f) = true := by
  induction f with
  | nil => simp [removeIdMatching, allElems]
  | text s next ih => simpa [removeIdMatching, allElems] using ih
  | elem t cs i ch next ih1 ih2 =>
    by_cases hc : idMatches i = true
    · simp only [removeIdMatching, hc, if_true]
      exact ih2
    · simp only [Bool.not_eq_true] at hc
      simp only [removeIdMatching, hc, Bool.false_eq_true, if_false, allElems, hc,
        Bool.not_false, Bool.true_and, Bool.and_eq_true]
      exact ⟨ih1, ih2⟩

theorem allWs_removeEmptyLi (f : HForest) : allWs (removeEmptyLi f) = allWs f := by
  induction f with
  | nil => simp [removeEmptyLi]
  | text s next ih => simp [removeEmptyLi, allWs, ih]
  | elem t cs i ch next ih1 ih2 =>
    by_cases hc : (t == "li" && allWs ch) = true
    · simp only [removeEmptyLi, hc, if_true, ih2, allWs]
      rw [Bool.and_eq_true] at hc
      simp [hc.2]
    · simp only [Bool.not_eq_true] at hc
      simp [removeEmptyLi, hc, allWs, ih1, ih2]

theorem removeEmptyLi_clean (f : HForest) : noEmptyLi (removeEmptyLi f) = true := by
  induction f with
  | nil => simp [removeEmptyLi, noEmptyLi]
  | text s next ih => simpa [removeEmptyLi, noEmptyLi] using ih
  | elem t cs i ch next ih1 ih2 =>
    by_cases hc : (t == "li" && allWs ch) = true
    · simp only [removeEmptyLi, hc, if_true]
      exact ih2
    · simp only [Bool.not_eq_true] at hc
      simp only [removeEmptyLi, hc, Bool.false_eq_true, if_false, noEmptyLi,
        allWs_removeEmptyLi, hc, Bool.not_false, Bool.true_and, Bool.and_eq_true]
      exact ⟨ih1, ih2⟩

theorem removeClassWord_id (w : String) (f : HForest)
    (h : allElems (fun _ cs _ => !classMatches w cs) f = true) :
    removeClassWord w f = f := by
  induction f with
  | nil => simp [removeClassWord]
  | text s next ih =>
    simp only [allElems] at h
    simp [removeClassWord, ih h]
  | elem t cs i ch next ih1 ih2 =>
    simp only [allElems, Bool.and_eq_true] at h
    obtain ⟨⟨hq, hch⟩, hnext⟩ := h
    simp only [Bool.not_eq_true'] at hq
    simp [removeClassWord, hq, ih1 hch, ih2 hnext]

theorem removeTags_id (tags : List String) (f : HForest)
    (h : allElems (fun t _ _ => !tags.contains t) f = true) :
    removeTags tags f = f := by
  induction f with
  | nil => simp [removeTags]
  | text s next ih =>
    simp only [allElems] at h
    simp [removeTags, ih h]
  | elem t cs i ch next ih1 ih2 =>
    simp only [allElems, Bool.and_eq_true] at h
    obtain ⟨⟨hq, hch⟩, hnext⟩ := h
    simp only [Bool.not_eq_true'] at hq
    simp only [removeTags, hq, Bool.false_eq_true, if_false, ih1 hch, ih2 hnext]

theorem unwrapAnchors_id (f : HForest)
    (h : allElems (fun t _ _ => !(t == "a")) f = true) :
    unwrapAnchors f = f := by
  induction f with
  | nil => simp [unwrapAnchors]
  | text s next ih =>
    simp only [allElems] at h
    simp [unwrapAnchors, ih h]
  | elem t cs i ch next ih1 ih2 =>
    simp only [allElems, Bool.and_eq_true] at h
    obtain ⟨⟨hq, hch⟩, hnext⟩ := h
    simp only [Bool.not_eq_true'] at hq
    simp [unwrapAnchors, hq, ih1 hch, ih2 hnext]

theorem removeIdMatching_id (f : HForest)
    (h : allElems (fun _ _ i => !idMatches i) f = true) :
    removeIdMatching f = f := by
  induction f with
  | nil => simp [removeIdMatching]
  | text s next ih =>
    simp only [allElems] at h
    simp [removeIdMatching, ih h]
  | elem t cs i ch next ih1 ih2 =>
    simp only [allElems, Bool.and_eq_true] at h
    obtain ⟨⟨hq, hch⟩, hnext⟩ := h
    simp only [Bool.not_eq_true'] at hq
    simp [removeIdMatching, hq, ih1 hch, ih2 hnext]

theorem removeEmptyLi_id (f : HForest) (h : noEmptyLi f = true) :
    removeEmptyLi f = f := by
  induction f with
  | nil => simp [removeEmptyLi]
  | text s next ih =>
    simp only [noEmptyLi] at h
    simp [removeEmptyLi, ih h]
  | elem t cs i ch next ih1 ih2 =>
    simp only [noEmptyLi, Bool.and_eq_true] at h
    obtain ⟨⟨hq, hch⟩, hnext⟩ := h
    simp only [Bool.not_eq_true'] at hq
    simp [removeEmptyLi, hq, ih1 hch, ih2 hnext]

theorem getText_unwrapAnchors (f : HForest) : getText (unwrapAnchors f) = getText f := by
  induction f with
  | nil => simp [unwrapAnchors]
  | text s next ih => simp [unwrapAnchors, getText, ih]
  | elem t cs i ch next ih1 ih2 =>
    by_cases hc : (t == "a") = true
    · simp [unwrapAnchors, hc, getText, ih2]
    · simp only [Bool.not_eq_true] at hc
      simp [unwrapAnchors, hc, getText, ih1, ih2]

theorem allElems_congr (q1 q2 : String → List String → Option String → Bool)
    (hq : ∀ t cs i, q1 t cs i = q2 t cs i) (f : HForest) :
    allElems q1 f = allElems q2 f := by
  induction f with
  | nil => rfl
  | text s next ih => simpa [allElems] using ih
  | elem t cs i ch next ih1 ih2 => simp [allElems, hq, ih1, ih2]

theorem removeClassPasses_unfold (f : HForest) :
    removeClassPasses f =
      removeClassWord "references" (removeClassWord "reflist" (removeClassWord "cite"
        (removeClassWord "reference" (removeClassWord "citation" f)))) := by
  simp [removeClassPasses, citationClasses, List.foldl]

theorem removeClassPasses_clean (f : HForest) :
    allElems (fun _ cs _ => !classMatches "citation" cs) (removeClassPasses f) = true ∧
    allElems (fun _ cs _ => !classMatches "reference" cs) (removeClassPasses f) = true ∧
    allElems (fun _ cs _ => !classMatches "cite" cs) (removeClassPasses f) = true ∧
    allElems (fun _ cs _ => !classMatches "reflist" cs) (removeClassPasses f) = true ∧
    allElems (fun _ cs _ => !classMatches "references" cs) (removeClassPasses f) = true := by
  rw [removeClassPasses_unfold]
  refine ⟨?_, ?_, ?_, ?_, ?_⟩
  · exact allElems_removeClassWord_mono _ _ _ (allElems_removeClassWord_mono _ _ _
      (allElems_removeClassWord_mono _ _ _ (allElems_removeClassWord_mono _ _ _
        (removeClassWord_clean "citation" f))))
  · exact allElems_removeClassWord_mono _ _ _ (allElems_removeClassWord_mono _ _ _
      (allElems_removeClassWord_mono _ _ _ (removeClassWord_clean "reference" _)))
  · exact allElems_removeClassWord_mono _ _ _ (allElems_removeClassWord_mono _ _ _
      (removeClassWord_clean "cite" _))
  · exact allElems_removeClassWord_mono _ _ _ (removeClassWord_clean "reflist" _)
  · exact removeClassWord_clean "references" _

theorem allElems_removeClassPasses_mono (q : String → List String → Option String → Bool)
    (f : HForest) (h : allElems q f = true) : allElems q (removeClassPasses f) = true := by
  rw [removeClassPasses_unfold]
  exact allElems_removeClassWord_mono _ _ _ (allElems_removeClassWord_mono _ _ _
    (allElems_removeClassWord_mono _ _ _ (allElems_removeClassWord_mono _ _ _
      (allElems_removeClassWord_mono _ _ _ h))))

theorem cleanLinksT_facts (f : HForest) :
    allElems (fun _ cs _ => !classMatches "citation" cs) (cleanLinksT f) = true ∧
    allElems (fun _ cs _ => !classMatches "reference" cs) (cleanLinksT f) = true ∧
    allElems (fun _ cs _ => !classMatches "cite" cs) (cleanLinksT f) = true ∧
    allElems (fun _ cs _ => !classMatches "reflist" cs) (cleanLinksT f) = true ∧
    allElems (fun _ cs _ => !classMatches "references" cs) (cleanLinksT f) = true ∧
    allElems (fun t _ _ => !citationElements.contains t) (cleanLinksT f) = true ∧
    allElems (fun t _ _ => !(t == "a")) (cleanLinksT f) = true ∧
    allElems (fun _ _ i => !idMatches i) (cleanLinksT f) = true ∧
    noEmptyLi (cleanLinksT f) = true := by
  have hcls := removeClassPasses_clean f
  unfold cleanLinksT
  refine ⟨?_, ?_, ?_, ?_, ?_, ?_, ?_, ?_, ?_⟩
  · exact allElems_removeEmptyLi_mono _ _ (allElems_removeIdMatching_mono _ _
      (allElems_unwrapAnchors_mono _ _ (allElems_removeTags_mono _ _ _ hcls.1)))
  · exact allElems_removeEmptyLi_mono _ _ (allElems_removeIdMatching_mono _ _
      (allElems_unwrapAnchors_mono _ _ (allElems_removeTags_mono _ _ _ hcls.2.1)))
  · exact allElems_removeEmptyLi_mono _ _ (allElems_removeIdMatching_mono _ _
      (allElems_unwrapAnchors_mono _ _ (allElems_removeTags_mono _ _ _ hcls.2.2.1)))
  · exact allElems_removeEmptyLi_mono _ _ (allElems_removeIdMatching_mono _ _
      (allElems_unwrapAnchors_mono _ _ (allElems_removeTags_mono _ _ _ hcls.2.2.2.1)))
  · exact allElems_removeEmptyLi_mono _ _ (allElems_removeIdMatching_mono _ _
      (allElems_unwrapAnchors_mono _ _ (allElems_removeTags_mono _ _ _ hcls.2.2.2.2)))
  · exact allElems_removeEmptyLi_mono _ _ (allElems_removeIdMatching_mono _ _
      (allElems_unwrapAnchors_mono _ _ (removeTags_clean _ _)))
  · exact allElems_removeEmptyLi_mono _ _ (allElems_removeIdMatching_mono _ _
      (unwrapAnchors_clean _))
  · exact allElems_removeEmptyLi_mono _ _ (removeIdMatching_clean _)
  · exact removeEmptyLi_clean _

theorem cleanImagesT_facts (f : HForest) :
    allElems (fun t _ _ => !(t == "img")) (cleanImagesT f) = true ∧
    allElems (fun t _ _ => !(t == "figure")) (cleanImagesT f) = true := by
  constructor
  · rw [allElems_congr _ (fun t _ _ => !(["img"].contains t))
      (by intro t cs i; by_cases h : t = "img" <;> simp [h])]
    exact allElems_removeTags_mono _ _ _ (removeTags_clean ["img"] f)
  · rw [allElems_congr _ (fun t _ _ => !(["figure"].contains t))
      (by intro t cs i; by_cases h : t = "figure" <;> simp [h])]
    exact removeTags_clean ["figure"] _

theorem cleanLinksT_idem (f : HForest) : cleanLinksT (cleanLinksT f) = cleanLinksT f := by
  obtain ⟨h1, h2, h3, h4, h5, htags, ha, hid, hli⟩ := cleanLinksT_facts f
  have e1 : removeClassPasses (cleanLinksT f) = cleanLinksT f := by
    rw [removeClassPasses_unfold, removeClassWord_id _ _ h1, removeClassWord_id _ _ h2,
      removeClassWord_id _ _ h3, removeClassWord_id _ _ h4, removeClassWord_id _ _ h5]
  show removeEmptyLi (removeIdMatching (unwrapAnchors (removeTags citationElements
    (removeClassPasses (cleanLinksT f))))) = cleanLinksT f
  rw [e1, removeTags_id _ _ htags, unwrapAnchors_id _ ha, removeIdMatching_id _ hid,
    removeEmptyLi_id _ hli]

theorem cleanImagesT_idem (f : HForest) : cleanImagesT (cleanImagesT f) = cleanImagesT f := by
  obtain ⟨himg, hfig⟩ := cleanImagesT_facts f
  have himg' : allElems (fun t _ _ => !(["img"].contains t)) (cleanImagesT f) = true := by
    rw [← allElems_congr (fun t _ _ => !(t == "img")) _
      (by intro t cs i; by_cases h : t = "img" <;> simp [h])]
    exact himg
  have hfig' : allElems (fun t _ _ => !(["figure"].contains t)) (cleanImagesT f) = true := by
    rw [← allElems_congr (fun t _ _ => !(t == "figure")) _
      (by intro t cs i; by_cases h : t = "figure" <;> simp [h])]
    exact hfig
  show removeTags ["figure"] (removeTags ["img"] (cleanImagesT f)) = cleanImagesT f
  rw [removeTags_id _ _ himg', removeTags_id _ _ hfig']

/-- C5: the claim as stated is false: the anchor inside the removed span
element is removed together with the span, its text "hello" not
preserved anywhere in the output, which serializes to the empty
string. -/
theorem c5_anchor_text_lost_counterexample :
    getText exSpanAnchor = "hello" ∧ cleanLinksT exSpanAnchor = .nil ∧
      clean_links exSpanAnchor = "" := by
  refine ⟨rfl, ?_, ?_⟩ <;> rfl

/-- C5 (amended): re-parsing the output of clean_links yields no element
whose class or id matches the citation vocabulary and no a element, and
the anchor-unwrapping pass itself preserves the document text (anchors
inside elements removed by the earlier citation passes are removed with
them); the output of clean_images holds zero img and zero figure
elements. -/
theorem c5_amended_cleaners (f : HForest) :
    allElems (fun _ cs _ => !classMatches "citation" cs) (cleanLinksT f) = true ∧
    allElems (fun _ cs _ => !classMatches "reference" cs) (cleanLinksT f) = true ∧
    allElems (fun _ cs _ => !classMatches "cite" cs) (cleanLinksT f) = true ∧
    allElems (fun _ cs _ => !classMatches "reflist" cs) (cleanLinksT f) = true ∧
    allElems (fun _ cs _ => !classMatches "references" cs) (cleanLinksT f) = true ∧
    allElems (fun _ _ i => !idMatches i) (cleanLinksT f) = true ∧
    allElems (fun t _ _ => !(t == "a")) (cleanLinksT f) = true ∧
    getText (unwrapAnchors f) = getText f ∧
    allElems (fun t _ _ => !(t == "img")) (cleanImagesT f) = true ∧
    allElems (fun t _ _ => !(t == "figure")) (cleanImagesT f) = true := by
  obtain ⟨h1, h2, h3, h4, h5, _, ha, hid, _⟩ := cleanLinksT_facts f
  obtain ⟨himg, hfig⟩ := cleanImagesT_facts f
  exact ⟨h1, h2, h3, h4, h5, hid, ha, getText_unwrapAnchors f, himg, hfig⟩

/-- C6: both transforms are idempotent: re-cleaning an already cleaned
document tree changes nothing, so the re-serialized output string is
unchanged as well.  Purity and the fresh output string are intrinsic to
the embedding: clean_links and clean_images are functions of the parsed
input returning a newly serialized string. -/
theorem c6_cleaners_idempotent (f : HForest) :
    clean_links (cleanLinksT f) = clean_links f ∧
      clean_images (cleanImagesT f) = clean_images f := by
  unfold clean_links clean_images
  rw [cleanLinksT_idem, cleanImagesT_idem]
  exact ⟨rfl, rfl⟩

/-- C1: evaluation of crawl_website at a crawl whose first polled status
is failed (with a sink supplied and SHOW_LOGS left at its default True):
the call raises TypeError out of the two-argument error_update call,
emitting only the two initial progress events — no error notification —
and returning nothing. -/
theorem c1_crawl_failed_typeerror :
    crawl_website defaultValves true "https://example.com" ["failed"] [] id id =
      some ([⟨"in_progress", "Starting crawl of https://example.com", false⟩,
             ⟨"in_progress", "Starting crawl document load", false⟩],
        .error (.typeError "error_update() takes 2 positional arguments but 3 were given")) ∧
    List.countP (fun ev => ev.status == "error")
      [(⟨"in_progress", "Starting crawl of https://example.com", false⟩ : StatusEvent),
       ⟨"in_progress", "Starting crawl document load", false⟩] = 0 :=
  ⟨rfl, rfl⟩

/-- C2: the claim as stated is false: a completed crawl whose document
carries an empty metadata sourceURL appends a result record whose url
field is the empty string. -/
theorem c2_empty_url_counterexample :
    (processDocs ⟨true, true⟩ id id true 1 [exEmptyUrlDoc] 1).2 =
      .ok [⟨"", "t", "", []⟩] ∧
    (ResultRecord.url ⟨"", "t", "", []⟩) = "" :=
  ⟨rfl, rfl⟩

/-- C2 (amended): every result record appended by the processing loops
of scrape_website and crawl_website arises from its document, its url
field equal to the document's metadata sourceURL (which may be empty),
and its content field is the empty string — present, not absent — when
the document holds neither an html nor a markdown body. -/
theorem c2_amended_record_fields (cl ci : String → String) (flag : Bool) :
    (∀ doc r, processDoc cl ci flag doc = .ok r →
      doc.sourceURL = some r.url ∧
      (doc.html = none → doc.markdown = none → r.content = "")) ∧
    (∀ (em : EventEmitter) (total : Nat) (docs : List PageDoc) (i : Nat) rs,
      (processDocs em cl ci flag total docs i).2 = .ok rs →
      ∀ r ∈ rs, ∃ doc ∈ docs, processDoc cl ci flag doc = .ok r) := by
  constructor
  · intro doc r h
    obtain ⟨dh, dm, dt, du⟩ := doc
    cases dt with
    | none => exact absurd h (by simp [processDoc])
    | some t =>
      cases du with
      | none => exact absurd h (by simp [processDoc])
      | some u =>
        simp only [processDoc, Except.ok.injEq] at h
        subst h
        refine ⟨rfl, ?_⟩
        intro hh hm
        simp only at hh hm
        subst hh; subst hm
        rfl
  · intro em total docs
    induction docs with
    | nil =>
      intro i rs h r hr
      simp only [processDocs, Except.ok.injEq] at h
      subst h
      exact absurd hr (by simp)
    | cons d rest ih =>
      intro i rs h r hr
      simp only [processDocs] at h
      cases hd : processDoc cl ci flag d with
      | error e => rw [hd] at h; simp at h
      | ok r0 =>
        rw [hd] at h
        cases hrest : processDocs em cl ci flag total rest (i + 1) with
        | mk evs res =>
          rw [hrest] at h
          cases res with
          | error e => simp at h
          | ok rs0 =>
            simp only [Except.ok.injEq] at h
            subst h
            rcases List.mem_cons.mp hr with hr0 | hrs
            · subst hr0
              exact ⟨d, List.mem_cons_self d rest, hd⟩
            · obtain ⟨doc, hdoc, hp⟩ := ih (i + 1) rs0 (by rw [hrest]) r hrs
              exact ⟨doc, List.mem_cons_of_mem d hdoc, hp⟩

/-- C2 (amended) witness at a document with neither body and sourceURL
"u". -/
theorem c2_amended_record_fields_witness :
    processDoc id id true ⟨none, none, some "t", some "u"⟩ = .ok ⟨"u", "t", "", []⟩ ∧
    ((⟨none, none, some "t", some "u"⟩ : PageDoc).sourceURL =
        some (ResultRecord.url ⟨"u", "t", "", []⟩) ∧
      ((⟨none, none, some "t", some "u"⟩ : PageDoc).html = none →
        (⟨none, none, some "t", some "u"⟩ : PageDoc).markdown = none →
        (ResultRecord.content ⟨"u", "t", "", []⟩) = "")) :=
  ⟨rfl, (c2_amended_record_fields id id true).1 _ _ rfl⟩

/-- C4: content selection picks the html body when present, applying the
two cleaning transforms to it exactly when the cleaning flag is set (so
a document with both keys selects html), and otherwise falls back to the
markdown body verbatim with no cleaning applied. -/
theorem c4_content_selection (cl ci : String → String) (flag : Bool) (doc : PageDoc) :
    (∀ h, doc.html = some h →
      selectContent cl ci flag doc = if flag then ci (cl h) else h) ∧
    (∀ m, doc.html = none → doc.markdown = some m →
      selectContent cl ci flag doc = m) := by
  constructor
  · intro h hh
    simp [selectContent, hh]
  · intro m hh hm
    simp [selectContent, hh, hm]

/-- C4 witness at a document with both bodies (html selected, cleaned)
and at a document with only markdown (taken verbatim). -/
theorem c4_content_selection_witness :
    ((⟨some "<p>x</p>", some "md", some "t", some "u"⟩ : PageDoc).html = some "<p>x</p>") ∧
    selectContent id id true ⟨some "<p>x</p>", some "md", some "t", some "u"⟩ =
      (if true then id (id "<p>x</p>") else "<p>x</p>") ∧
    selectContent id id false ⟨none, some "md", some "t", some "u"⟩ = "md" :=
  ⟨rfl, (c4_content_selection id id true _).1 "<p>x</p>" rfl,
    (c4_content_selection id id false _).2 "md" rfl rfl⟩

/-- C7: a notification call with the show-logs toggle false, or with no
sink supplied, is silently skipped: no event reaches the sink and no
error is raised (the error_update call being a well-formed one-argument
call). -/
theorem c7_notifier_skip (sink logs : Bool) (d : String)
    (h : logs = false ∨ sink = false) :
    EventEmitter.progress_update ⟨sink, logs⟩ d = [] ∧
    EventEmitter.success_update ⟨sink, logs⟩ d = [] ∧
    EventEmitter.error_update ⟨sink, logs⟩ [.str d] = .ok [] := by
  rcases h with h | h
  · subst h
    exact ⟨by simp [EventEmitter.progress_update],
      by simp [EventEmitter.success_update],
      by simp [EventEmitter.error_update]⟩
  · subst h
    cases logs <;>
      simp [EventEmitter.progress_update, EventEmitter.success_update,
        EventEmitter.error_update, EventEmitter.emit, pyShow]

/-- C7 witness: a sink is supplied but show_logs is false. -/
theorem c7_notifier_skip_witness :
    (false = false ∨ true = false) ∧
    (EventEmitter.progress_update ⟨true, false⟩ "hi" = [] ∧
      EventEmitter.success_update ⟨true, false⟩ "hi" = [] ∧
      EventEmitter.error_update ⟨true, false⟩ [.str "hi"] = .ok []) :=
  ⟨Or.inl rfl, c7_notifier_skip true false "hi" (Or.inl rfl)⟩


theorem searchVid_eq_none (s : List Char)
    (h : s.tails.any (fun t => (matchVidAt t).isSome) = false) :
    searchVid s = none := by
  induction s with
  | nil => rfl
  | cons c cs ih =>
    rw [List.tails_cons] at h
    simp only [List.any_cons, Bool.or_eq_false_iff] at h
    obtain ⟨hhead, htail⟩ := h
    cases hm : matchVidAt (c :: cs) with
    | some v => rw [hm] at hhead; simp at hhead
    | none =>
      simp only [searchVid, hm]
      exact ih htail

/-- C8: extract_video_id returns abcdefghijk for the two spec URL
shapes, and the empty string for every url in which the pattern (v= or
youtu.be/ followed by 11 id characters) matches at no position. -/
theorem c8_extract_video_id :
    extract_video_id "https://www.youtube.com/watch?v=abcdefghijk" = "abcdefghijk" ∧
    extract_video_id "https://youtu.be/abcdefghijk" = "abcdefghijk" ∧
    ∀ url : String, containsVidPattern url = false → extract_video_id url = "" := by
  refine ⟨rfl, rfl, ?_⟩
  intro url h
  have h' : url.toList.tails.any (fun t => (matchVidAt t).isSome) = false := h
  unfold extract_video_id
  rw [searchVid_eq_none url.toList h']

/-- C8 witness at a url containing neither pattern. -/
theorem c8_extract_video_id_witness :
    containsVidPattern "https://example.com/page" = false ∧
    extract_video_id "https://example.com/page" = "" :=
  ⟨by decide, c8_extract_video_id.2.2 _ (by decide)⟩

theorem mapM_lineOfText_ok (l : List (Option String)) (h : l.all Option.isSome = true) :
    l.mapM lineOfText = .ok (l.map (fun t => unescapeLine (t.getD ""))) := by
  induction l with
  | nil => rfl
  | cons a as ih =>
    simp only [List.all_cons, Bool.and_eq_true] at h
    cases a with
    | none => simp at h
    | some s =>
      rw [List.mapM_cons, ih h.2]
      rfl

theorem extract_transcript_ok (xdoc : XmlDoc) (h : xmlTextsPresent xdoc = true) :
    ∃ s, extract_transcript_from_xml xdoc = .ok s := by
  cases xdoc with
  | malformed => exact ⟨"", rfl⟩
  | parsed tag txt ch =>
    refine ⟨String.intercalate " " ((findTextNodes ch).map (fun t => unescapeLine (t.getD ""))), ?_⟩
    have h' : (findTextNodes ch).all Option.isSome = true := h
    show (match (findTextNodes ch).mapM lineOfText with
      | .error e => Except.error e
      | .ok lines => .ok (String.intercalate " " lines)) = _
    rw [mapM_lineOfText_ok _ h']

/-- C9: extract_transcript_from_xml joins the unescaped text content of
every text element with single spaces whenever each text element has
text content, and in particular returns the string
(It's &) on the parsed form of the spec's example input, whose two
character references the XML parser decodes. -/
theorem c9_transcript_xml :
    (∀ tag txt ch, (findTextNodes ch).all Option.isSome = true →
      extract_transcript_from_xml (.parsed tag txt ch) =
        .ok (String.intercalate " "
          ((findTextNodes ch).map (fun t => unescapeLine (t.getD ""))))) ∧
    extract_transcript_from_xml exTranscriptXml = .ok "It's &" := by
  constructor
  · intro tag txt ch h
    show (match (findTextNodes ch).mapM lineOfText with
      | .error e => Except.error e
      | .ok lines => .ok (String.intercalate " " lines)) = _
    rw [mapM_lineOfText_ok _ h]
  · rfl

/-- C9 witness at the spec's example document. -/
theorem c9_transcript_xml_witness :
    (findTextNodes (.elem "text" (some "It's &") XForest.nil XForest.nil)).all
      Option.isSome = true ∧
    extract_transcript_from_xml
        (.parsed "transcript" none (.elem "text" (some "It's &") XForest.nil XForest.nil)) =
      .ok (String.intercalate " "
        ((findTextNodes (.elem "text" (some "It's &") XForest.nil XForest.nil)).map
          (fun t => unescapeLine (t.getD "")))) :=
  ⟨rfl, c9_transcript_xml.1 "transcript" none _ rfl⟩

/-- C10: with no notification sink supplied, fetch_youtube_transcript
faults at its very first await — Python calls None — so for every url
and every remote behaviour the call raises TypeError and returns no
string, before the video id is even extracted. -/
theorem c10_no_sink_faults (video_url : String) (remote : TFRemote) :
    fetch_youtube_transcript false video_url remote =
      ([], .error (.typeError "'NoneType' object is not callable")) := rfl

/-- C3: the claim as stated is false: a remote whose caption XML is
well-formed but holds a text element with no text content drives
fetch_youtube_transcript into an uncaught AttributeError (None has no
replace method) instead of a returned string. -/
theorem c3_empty_text_raises_counterexample :
    fetch_youtube_transcript true "https://youtu.be/abcdefghijk" exBadXmlRemote =
      ([.status "Extracting video ID..." false,
        .status "Fetching video page..." false,
        .status "Extracting captions data..." false,
        .status "Downloading transcript..." false],
        .error (.attributeError "'NoneType' object has no attribute 'replace'")) := rfl

/-- C3 (amended): provided every text element of the fetched caption XML
has text content, fetch_youtube_transcript always terminates with a
returned string and never raises — each failure (invalid url, transport
failure, missing captions, missing baseUrl, malformed XML) yields its
fixed descriptive string, the invalid-url case returning exactly
(Invalid YouTube URL) — and no retry exists, each remote request being
consulted at most once per invocation. -/
theorem c3_amended_no_raise (video_url : String) (remote : TFRemote)
    (h : ∀ xdoc, remote.captionDoc = .ok xdoc → xmlTextsPresent xdoc = true) :
    (extract_video_id video_url = "" →
      fetch_youtube_transcript true video_url remote =
        ([.status "Extracting video ID..." false], .ok "Invalid YouTube URL")) ∧
    (∃ evs s, fetch_youtube_transcript true video_url remote = (evs, .ok s)) := by
  constructor
  · intro hvid
    simp [fetch_youtube_transcript, hvid]
  · simp only [fetch_youtube_transcript]
    rw [if_neg (by simp)]
    split
    · exact ⟨_, _, rfl⟩
    · split
      · exact ⟨_, _, rfl⟩
      · split
        · exact ⟨_, _, rfl⟩
        · split
          · exact ⟨_, _, rfl⟩
          · split
            · exact ⟨_, _, rfl⟩
            · split
              · exact ⟨_, _, rfl⟩
              · rename_i xdoc hx
                obtain ⟨s, hs⟩ := extract_transcript_ok xdoc (h xdoc hx)
                rw [hs]
                dsimp only
                split
                · exact ⟨_, _, rfl⟩
                · exact ⟨_, _, rfl⟩

/-- C3 (amended) witness at a remote whose watch-page request fails (the
caption hypothesis holds vacuously). -/
theorem c3_amended_no_raise_witness :
    (∀ xdoc, (TFRemote.mk (.error "boom") (.error "net")).captionDoc = .ok xdoc →
      xmlTextsPresent xdoc = true) ∧
    ((extract_video_id "nope" = "" →
      fetch_youtube_transcript true "nope" ⟨.error "boom", .error "net"⟩ =
        ([.status "Extracting video ID..." false], .ok "Invalid YouTube URL")) ∧
    (∃ evs s, fetch_youtube_transcript true "nope" ⟨.error "boom", .error "net"⟩ =
      (evs, .ok s))) :=
 by
  refine ⟨fun _ hx => (nomatch hx), ?_⟩
  exact c3_amended_no_raise "nope" ⟨.error "boom", .error "net"⟩ (fun _ hx => nomatch hx)
